import Mathlib

/-!
AsyncCSV: export pipeline and download server.

A shallow embedding of `src/app/src/index.js` (the HTTP handlers) and
`src/app/src/exporter.js` (`startExport`, `cancelJob`) together with the
properties proved about them.

Conventions of the embedding.

* JavaScript strings are Lean `String`s; the string primitives used by the
  source (`includes`, `replace`, `split`, `parseInt`) are defined on the
  list of characters.
* JavaScript numbers that the handlers compute with are integers; `NaN` is
  `none` in an `Option Int`.  Integers are unbounded: the embedding agrees
  with the source's doubles on numerals below `2 ^ 53` and says nothing
  about larger ones.
* A handler returns the response it builds and the file-system calls it
  makes, in order.
-/

namespace AsyncCSV

/-! ## JavaScript string primitives -/

/-- `stripFront pat s` removes `pat` from the front of `s` when `s` starts with it. -/
def stripFront : List Char → List Char → Option (List Char)
  | [], s => some s
  | _ :: _, [] => none
  | p :: ps, c :: cs => if p = c then stripFront ps cs else none

/-- `String.prototype.includes`: does `pat` occur somewhere in `s`. -/
def includes (s pat : List Char) : Bool :=
  match s with
  | [] => (stripFront pat []).isSome
  | c :: cs => (stripFront pat (c :: cs)).isSome || includes cs pat

/-- `String.prototype.replace` with a literal, non-global pattern: the first
occurrence of `pat` is replaced by `rep`. -/
def replaceFirst (pat rep : List Char) : List Char → List Char
  | [] =>
    match stripFront pat [] with
    | some r => rep ++ r
    | none => []
  | c :: cs =>
    match stripFront pat (c :: cs) with
    | some r => rep ++ r
    | none => c :: replaceFirst pat rep cs

/-- `String.prototype.split` on a one-character separator. -/
def splitOn (sep : Char) : List Char → List (List Char)
  | [] => [[]]
  | c :: cs =>
    if c = sep then [] :: splitOn sep cs
    else
      match splitOn sep cs with
      | [] => [[c]]
      | p :: ps => (c :: p) :: ps

/-- ECMAScript `StrWhiteSpaceChar`: white space and line terminators. -/
def isStrWhiteSpace (c : Char) : Bool :=
  let n := c.toNat
  n = 0x09 || n = 0x0A || n = 0x0B || n = 0x0C || n = 0x0D || n = 0x20 ||
  n = 0xA0 || n = 0x1680 || (0x2000 ≤ n && n ≤ 0x200A) || n = 0x2028 ||
  n = 0x2029 || n = 0x202F || n = 0x205F || n = 0x3000 || n = 0xFEFF

/-- The value of a decimal digit character. -/
def digitVal (c : Char) : Option Nat :=
  if 48 ≤ c.toNat ∧ c.toNat ≤ 57 then some (c.toNat - 48) else none

/-- The longest leading run of decimal digits, as digit values. -/
def takeDigits : List Char → List Nat
  | [] => []
  | c :: cs =>
    match digitVal c with
    | some d => d :: takeDigits cs
    | none => []

/-- The number denoted by a list of decimal digits, most significant first. -/
def digitsValue (ds : List Nat) : Nat :=
  ds.foldl (fun acc d => acc * 10 + d) 0

/-- `parseInt(s, 10)`: leading white space is skipped, an optional sign is
read, then the longest run of decimal digits; no digit gives `NaN` (`none`),
and whatever follows the digits is ignored. -/
def parseInt (s : List Char) : Option Int :=
  let t := s.dropWhile isStrWhiteSpace
  let signed : Bool × List Char :=
    match t with
    | [] => (false, [])
    | c :: r => if c = '-' then (true, r) else if c = '+' then (false, r) else (false, c :: r)
  let ds := takeDigits signed.2
  if ds.isEmpty then none
  else some (if signed.1 then -((digitsValue ds : Nat) : Int) else ((digitsValue ds : Nat) : Int))

/-- Template-literal rendering of an integer-valued number. -/
def numToString (n : Int) : String := toString n

/-! ## The download handler, `GET /exports/:id/download` -/

/-- The columns of an `exports` row that the handlers select. -/
structure ExportRow where
  file_path : String
  status : String
  deriving DecidableEq, Repr

/-- The parts of a download request the handler reads. -/
structure Request where
  id : String
  acceptEncoding : Option String
  range : Option String
  deriving DecidableEq, Repr

/-- A call into the file system made by a handler. -/
inductive FsOp where
  | existsSync (path : String)
  | statSync (path : String)
  | createReadStream (path : String) (slice : Option (Int × Int))
  | unlinkSync (path : String)
  deriving DecidableEq, Repr

/-- What is sent as the response body. -/
inductive Body where
  | empty
  | json (error : String)
  | file (path : String) (slice : Option (Int × Int))
  | gzipFile (path : String)
  deriving DecidableEq, Repr

/-- The response a handler builds: the status and the headers it sets. -/
structure Response where
  status : Nat := 200
  contentType : Option String := none
  contentDisposition : Option String := none
  acceptRanges : Option String := none
  contentEncoding : Option String := none
  contentLength : Option Int := none
  contentRange : Option String := none
  body : Body := Body.empty
  deriving DecidableEq, Repr

/-- The world a handler runs in: the `exports` table and the file system. -/
structure World where
  db : String → Option ExportRow
  fileExists : String → Bool
  fileSize : String → Nat

/-- Lines 86-98 of `index.js`: the non-gzip path once a truthy `Range` header
is present; `res` carries the headers set so far. -/
def serveRange (res : Response) (filePath : String) (size : Nat) (range : String) :
    Response × List FsOp :=
  let parts := splitOn '-' (replaceFirst "bytes=".toList [] range.toList)
  let start := parseInt (parts.headD [])
  let end_ : Option Int :=
    match parts.get? 1 with
    | some p => if p ≠ [] then parseInt p else some ((size : Int) - 1)
    | none => some ((size : Int) - 1)
  match start, end_ with
  | some st, some en =>
    if st > en ∨ st ≥ (size : Int) then
      ({ res with status := 416 }, [])
    else
      let chunkSize := (en - st) + 1
      ({ res with
          status := 206
          contentLength := some chunkSize
          contentRange := some ("bytes " ++ numToString st ++ "-" ++ numToString en ++ "/" ++
            numToString size)
          body := Body.file filePath (some (st, en)) },
       [FsOp.createReadStream filePath (some (st, en))])
  | _, _ => ({ res with status := 416 }, [])

/-- Lines 59-104 of `index.js`. -/
def download (w : World) (req : Request) : Response × List FsOp :=
  match w.db req.id with
  | none => ({ status := 404, body := Body.json "not found" }, [])
  | some row =>
    if row.status ≠ "completed" then
      ({ status := 425, body := Body.json "export not ready" }, [])
    else
      let filePath := row.file_path
      if !w.fileExists filePath then
        ({ status := 404, body := Body.json "file missing" }, [FsOp.existsSync filePath])
      else
        let acceptEnc := req.acceptEncoding.getD ""
        let useGzip := includes acceptEnc.toList "gzip".toList
        let size := w.fileSize filePath
        let res : Response :=
          { contentType := some "text/csv"
            contentDisposition := some ("attachment; filename=\"export_" ++ req.id ++ ".csv\"")
            acceptRanges := some "bytes" }
        let pre := [FsOp.existsSync filePath, FsOp.statSync filePath]
        if useGzip then
          ({ res with contentEncoding := some "gzip", body := Body.gzipFile filePath },
           pre ++ [FsOp.createReadStream filePath none])
        else
          match req.range with
          | some range =>
            if range ≠ "" then
              let r := serveRange res filePath size range
              (r.1, pre ++ r.2)
            else
              ({ res with contentLength := some (size : Int), body := Body.file filePath none },
               pre ++ [FsOp.createReadStream filePath none])
          | none =>
            ({ res with contentLength := some (size : Int), body := Body.file filePath none },
             pre ++ [FsOp.createReadStream filePath none])

/-- The number of bytes of a file of `size` bytes that lie in the inclusive
slice `[start, end]`: what a read stream opened on that slice delivers. -/
def bytesInSlice (size : Nat) (slice : Int × Int) : Nat :=
  (min slice.2 ((size : Int) - 1) - max slice.1 0 + 1).toNat

/-- A world holding one completed export whose file exists and has `size` bytes. -/
def completedWorld (size : Nat) : World :=
  { db := fun _ => some { file_path := "/exports/export_1.csv", status := "completed" }
    fileExists := fun _ => true
    fileSize := fun _ => size }

/-! ## The `exports` table -/

/-- An `UPDATE exports SET ... WHERE id = $n`: the columns it assigns. -/
structure Update where
  total_rows : Option Nat := none
  processed_rows : Option Nat := none
  status : Option String := none
  error : Option String := none
  completed_at : Bool := false
  deriving DecidableEq, Repr

/-- The mutable columns of one `exports` row. -/
structure JobRecord where
  status : String
  total_rows : Option Nat := none
  processed_rows : Option Nat := none
  error : Option String := none
  completed_at : Bool := false
  file_path : String := ""
  deriving DecidableEq, Repr

/-- The effect of an `UPDATE` on the row it addresses. -/
def applyUpdate (r : JobRecord) (u : Update) : JobRecord :=
  { r with
    status := u.status.getD r.status
    total_rows := u.total_rows.orElse (fun _ => r.total_rows)
    processed_rows := u.processed_rows.orElse (fun _ => r.processed_rows)
    error := u.error.orElse (fun _ => r.error)
    completed_at := u.completed_at || r.completed_at }

/-- The terminal statuses of a job. -/
def isTerminal (status : String) : Bool :=
  status = "completed" || status = "cancelled" || status = "failed"

/-! ## `startExport`: the filter clause (lines 14-42 of `exporter.js`) -/

/-- A value found on `job.filters`. -/
inductive JsVal where
  | undefined
  | str (s : String)
  | num (n : Int)
  | nan
  deriving DecidableEq, Repr

/-- JavaScript truthiness, as tested by `if (v)`. -/
def truthy : JsVal → Bool
  | JsVal.undefined => false
  | JsVal.str s => s ≠ ""
  | JsVal.num n => n ≠ 0
  | JsVal.nan => false

/-- The object `job.filters`. -/
structure Filters where
  country_code : JsVal := JsVal.undefined
  subscription_tier : JsVal := JsVal.undefined
  min_ltv : JsVal := JsVal.undefined
  deriving DecidableEq, Repr

/-- The three local variables of the clause builder. -/
structure WhereState where
  where_ : List String := []
  params : List JsVal := []
  idx : Nat := 1
  deriving DecidableEq, Repr

/-- One `if (filters.f) { where.push(...$${idx++}); params.push(filters.f); }`. -/
def pushFilter (clause : String) (v : JsVal) (st : WhereState) : WhereState :=
  if truthy v then
    { where_ := st.where_ ++ [clause ++ "$" ++ toString st.idx]
      params := st.params ++ [v]
      idx := st.idx + 1 }
  else st

/-- Lines 15-29: the clause builder run on a filter set. -/
def buildWhere (filters : Filters) : WhereState :=
  pushFilter "lifetime_value >= " filters.min_ltv
    (pushFilter "subscription_tier = " filters.subscription_tier
      (pushFilter "country_code = " filters.country_code {}))

/-- Line 30: `where.length ? ... : ''`. -/
def whereSql (where_ : List String) : String :=
  if where_.length ≠ 0 then "WHERE " ++ " AND ".intercalate where_ else ""

/-- The default column list of line 38. -/
def defaultColumns : List String :=
  ["id", "name", "email", "signup_date", "country_code", "subscription_tier", "lifetime_value"]

/-- Line 38: the requested columns, or the default list when none is given. -/
def selectColumns (columns : Option (List String)) : List String :=
  match columns with
  | some cs => if cs.length ≠ 0 then cs else defaultColumns
  | none => defaultColumns

/-- A query sent to the data store: its text and its parameters. -/
structure Query where
  sql : String
  params : List JsVal
  deriving DecidableEq, Repr

/-- Line 33: the count query. -/
def countQuery (filters : Filters) : Query :=
  let st := buildWhere filters
  { sql := "SELECT COUNT(*)::bigint as cnt FROM users " ++ whereSql st.where_
    params := st.params }

/-- Lines 41-42: the row query. -/
def rowQuery (filters : Filters) (columns : Option (List String)) : Query :=
  let st := buildWhere filters
  { sql := "SELECT " ++ ", ".intercalate (selectColumns columns) ++ " FROM users " ++
      whereSql st.where_
    params := st.params }

/-! ## `startExport`: the streaming phase (lines 48-79) -/

/-- A row delivered by the cursor. -/
abbrev UserRow := List String

/-- A JavaScript error object. -/
structure JsError where
  name : String := "Error"
  message : String
  deriving DecidableEq, Repr

/-- `String(err)`, that is `Error.prototype.toString`. -/
def errToString (e : JsError) : String :=
  if e.name = "" then e.message
  else if e.message = "" then e.name
  else e.name ++ ": " ++ e.message

/-- The events the handlers of `startExport` are registered for, and the
invocation of the job's cancel handle. For a `data` event `writeOk` is what
`csvStream.write(row)` returns if the handler calls it. -/
inductive Event where
  | data (row : UserRow) (writeOk : Bool)
  | drain
  | sourceEnd
  | cancel
  | finish
  | writeError (err : JsError)
  | streamError (err : JsError)
  | csvError (err : JsError)
  deriving DecidableEq, Repr

/-- What a handler does to the streams, the data store and the promise. -/
inductive Effect where
  | write (row : UserRow)
  | pause
  | resume
  | destroy (err : JsError)
  | csvEnd
  | progress (processed : Nat)
  | resolve
  | reject (err : JsError)
  deriving DecidableEq, Repr

/-- The two `let` variables the handlers close over. -/
structure Vars where
  processed : Nat := 0
  cancelled : Bool := false
  deriving DecidableEq, Repr

/-- The handlers of lines 50-78, one per event. -/
def handle (v : Vars) : Event → Vars × List Effect
  | Event.data row writeOk =>
    if v.cancelled then (v, [])
    else
      let processed := v.processed + 1
      ({ v with processed := processed },
       [Effect.write row] ++ (if !writeOk then [Effect.pause] else []) ++
         (if processed % 1000 = 0 then [Effect.progress processed] else []))
  | Event.drain => (v, if !v.cancelled then [Effect.resume] else [])
  | Event.sourceEnd => (v, if !v.cancelled then [Effect.csvEnd] else [])
  | Event.cancel =>
    ({ v with cancelled := true }, [Effect.destroy { message := "cancelled" }, Effect.csvEnd])
  | Event.finish => (v, [Effect.resolve])
  | Event.writeError err => (v, [Effect.reject err])
  | Event.streamError err => (v, [Effect.reject err])
  | Event.csvError err => (v, [Effect.reject err])

/-- How the promise of line 74 was settled. -/
inductive Settlement where
  | resolved
  | rejected (err : JsError)
  deriving DecidableEq, Repr

/-- The state of one running pipeline: the handlers' variables, whether the
cursor stream is flowing, the promise, the rows submitted to the CSV sink (in
order) and the progress checkpoints issued (in order). -/
structure PipeState where
  vars : Vars := {}
  flowing : Bool := true
  settled : Option Settlement := none
  sink : List UserRow := []
  checkpoints : List Nat := []
  deriving DecidableEq, Repr

/-- The effect of one handler action on the pipeline state; a promise is
settled once. -/
def applyEffect (s : PipeState) : Effect → PipeState
  | Effect.write row => { s with sink := s.sink ++ [row] }
  | Effect.pause => { s with flowing := false }
  | Effect.resume => { s with flowing := true }
  | Effect.destroy _ => s
  | Effect.csvEnd => s
  | Effect.progress n => { s with checkpoints := s.checkpoints ++ [n] }
  | Effect.resolve =>
    match s.settled with
    | none => { s with settled := some Settlement.resolved }
    | some _ => s
  | Effect.reject err =>
    match s.settled with
    | none => { s with settled := some (Settlement.rejected err) }
    | some _ => s

/-- One event: its handler runs and its actions take effect. -/
def step (s : PipeState) (e : Event) : PipeState :=
  let r := handle s.vars e
  r.2.foldl applyEffect { s with vars := r.1 }

/-- The events are handled in order up to and including the one that settles
the promise; the function then continues past its `await`. -/
def runUntilSettled : PipeState → List Event → PipeState
  | s, [] => s
  | s, e :: es =>
    let s1 := step s e
    if s1.settled.isSome then s1 else runUntilSettled s1 es

/-- The delivery contract of a readable stream: a `data` event is emitted
only while the stream is flowing. -/
def deliverable (s : PipeState) : Event → Bool
  | Event.data _ _ => s.flowing
  | _ => true

/-- A sequence of events that respects the delivery contract from `s` on. -/
def admissible : PipeState → List Event → Bool
  | _, [] => true
  | s, e :: es => deliverable s e && admissible (step s e) es

/-- All events handled, whether or not the promise has settled. -/
def run (s : PipeState) (es : List Event) : PipeState :=
  es.foldl step s

/-! ## `startExport`: the terminal update (lines 81-95) -/

/-- Line 82. -/
def completedUpdate (total : Nat) : Update :=
  { processed_rows := some total, status := some "completed", completed_at := true }

/-- Lines 85 and 90. -/
def cancelledUpdate : Update :=
  { status := some "cancelled", completed_at := true }

/-- Line 94. -/
def failedUpdate (err : JsError) : Update :=
  { status := some "failed", error := some (errToString err) }

/-- Lines 88-95: the `catch` block. -/
def catchBlock (err : JsError) : Update :=
  if includes (errToString err).toList "cancelled".toList then cancelledUpdate
  else failedUpdate err

/-- Lines 81-95: the update issued once the promise has settled; nothing is
issued while it is pending. -/
def terminalUpdate (total : Nat) (s : PipeState) : Option Update :=
  match s.settled with
  | none => none
  | some Settlement.resolved =>
    if !s.vars.cancelled then some (completedUpdate total) else some cancelledUpdate
  | some (Settlement.rejected err) => some (catchBlock err)

/-- What the environment supplies to one run of `startExport`: the outcome of
the count query and the events that follow the registration of the handlers. -/
structure Env where
  count : Except JsError Nat
  events : List Event

/-- The `job` object. -/
structure Job where
  id : String
  filters : Filters := {}
  columns : Option (List String) := none
  filePath : String := ""

/-- What one run of `startExport` did: the queries sent on the checked-out
client, the updates of the job's `exports` row in order, and the pipeline
state when the function left its `await`. -/
structure RunResult where
  queries : List Query
  updates : List Update
  final : PipeState
  deriving DecidableEq, Repr

/-- Lines 9-100: `startExport`. -/
def startExport (job : Job) (env : Env) : RunResult :=
  let countQ := countQuery job.filters
  match env.count with
  | Except.error err => { queries := [countQ], updates := [catchBlock err], final := {} }
  | Except.ok total =>
    let processing : Update := { total_rows := some total, status := some "processing" }
    let s := runUntilSettled {} env.events
    { queries := [countQ, rowQuery job.filters job.columns]
      updates := [processing] ++
        s.checkpoints.map (fun n => ({ processed_rows := some n } : Update)) ++
        (terminalUpdate total s).toList
      final := s }

/-- The statuses written by a list of updates, in order. -/
def statusWrites (us : List Update) : List String :=
  us.filterMap (fun u => u.status)

/-! ## `cancelJob` and the handler of `DELETE /exports/:id` -/

/-- Lines 102-105: the cancel handle is invoked when the job is registered. -/
def cancelJob (activeJobs : List String) (id : String) : List Event :=
  if id ∈ activeJobs then [Event.cancel] else []

/-- What the `DELETE` handler did. -/
structure DeleteResult where
  status : Nat
  row : Option JobRecord
  signalled : List Event
  fsOps : List FsOp
  deriving DecidableEq, Repr

/-- Lines 106-117 of `index.js`; `row` is the job's `exports` row, if any. -/
def deleteExport (activeJobs : List String) (fileExists : String → Bool)
    (id : String) (row : Option JobRecord) : DeleteResult :=
  match row with
  | none => { status := 404, row := none, signalled := [], fsOps := [] }
  | some r =>
    { status := 204
      row := some (applyUpdate r { status := some "cancelled" })
      signalled := cancelJob activeJobs id
      fsOps :=
        if r.file_path ≠ "" then
          [FsOp.existsSync r.file_path] ++
            (if fileExists r.file_path then [FsOp.unlinkSync r.file_path] else [])
        else [] }

/-! ## The filter clause as the specification words it -/

/-- The filters that are present, in the fixed order, each with the text of
its clause up to the placeholder. A filter is present when its value is truthy. -/
def presentFilters (f : Filters) : List (String × JsVal) :=
  [("country_code = ", f.country_code), ("subscription_tier = ", f.subscription_tier),
   ("lifetime_value >= ", f.min_ltv)].filter (fun p => truthy p.2)

/-- One clause per filter, the placeholders numbered consecutively from `k`. -/
def numberClauses : Nat → List (String × JsVal) → List String
  | _, [] => []
  | k, p :: ps => (p.1 ++ "$" ++ toString k) :: numberClauses (k + 1) ps

/-- The clauses joined by ` AND ` behind `WHERE`, or nothing without a filter. -/
def specWhereSql (ps : List (String × JsVal)) : String :=
  match ps with
  | [] => ""
  | _ :: _ => "WHERE " ++ " AND ".intercalate (numberClauses 1 ps)

/-! ## Traces of the streaming phase -/

/-- The events that `runUntilSettled` handles: those up to and including the
one that settles the promise. -/
def handled : PipeState → List Event → List Event
  | _, [] => []
  | s, e :: es =>
    let s1 := step s e
    if s1.settled.isSome then [e] else e :: handled s1 es

/-- The rows carried by the `data` events of a trace, in order. -/
def dataRows (es : List Event) : List UserRow :=
  es.filterMap (fun e =>
    match e with
    | Event.data row _ => some row
    | _ => none)

/-- Is the event a `data` event. -/
def isData : Event → Bool
  | Event.data _ _ => true
  | _ => false

/-! ## Lemmas on the string primitives -/

/-- A character in the range of the decimal digits. -/
def isDecDigit (c : Char) : Prop := 48 ≤ c.toNat ∧ c.toNat ≤ 57

theorem digitChar_toNat (k : Nat) (hk : k < 10) : (Nat.digitChar k).toNat = 48 + k := by
  interval_cases k <;> rfl

theorem toDigitsCore_spec (fuel : Nat) : ∀ (n : Nat) (ds : List Char), n < fuel →
    ∃ pre : List Char, Nat.toDigitsCore 10 fuel n ds = pre ++ ds ∧ pre ≠ [] ∧
      (∀ c ∈ pre, isDecDigit c) ∧
      ∀ acc : Nat, (pre.map (fun c => c.toNat - 48)).foldl (fun a d => a * 10 + d) acc =
        acc * 10 ^ pre.length + n := by
  induction fuel with
  | zero => intro n ds h; omega
  | succ fuel ih =>
    intro n ds hn
    have hmod : n % 10 < 10 := Nat.mod_lt _ (by decide)
    have hd := digitChar_toNat (n % 10) hmod
    unfold Nat.toDigitsCore
    by_cases h0 : n / 10 = 0
    · simp only [h0, if_true]
      refine ⟨[Nat.digitChar (n % 10)], rfl, by simp, ?_, ?_⟩
      · intro c hc
        simp only [List.mem_singleton] at hc
        subst hc
        unfold isDecDigit
        omega
      · intro acc
        simp only [List.map, List.foldl, List.length_singleton, pow_one, hd]
        omega
    · simp only [h0, if_false]
      have hlt : n / 10 < fuel := by omega
      obtain ⟨pre, hpre, hne, hdig, hval⟩ := ih (n / 10) (Nat.digitChar (n % 10) :: ds) hlt
      refine ⟨pre ++ [Nat.digitChar (n % 10)], ?_, by simp, ?_, ?_⟩
      · rw [hpre]; simp
      · intro c hc
        rcases List.mem_append.mp hc with h | h
        · exact hdig c h
        · simp only [List.mem_singleton] at h
          subst h
          unfold isDecDigit
          omega
      · intro acc
        simp only [List.map_append, List.foldl_append, List.map, List.foldl, hval,
          List.length_append, List.length_singleton, hd, pow_succ]
        have := Nat.div_add_mod n 10
        have e : 48 + n % 10 - 48 = n % 10 := by omega
        rw [e]
        ring_nf
        omega

/-- The decimal rendering of a natural number: its characters are digits,
there is at least one, and they denote the number. -/
theorem repr_digits (n : Nat) :
    (toString n).toList ≠ [] ∧ (∀ c ∈ (toString n).toList, isDecDigit c) ∧
      digitsValue ((toString n).toList.map (fun c => c.toNat - 48)) = n := by
  obtain ⟨pre, hpre, hne, hdig, hval⟩ := toDigitsCore_spec (n + 1) n [] (Nat.lt_succ_self n)
  have e : (toString n).toList = pre := by
    show (Nat.toDigits 10 n) = pre
    unfold Nat.toDigits
    rw [hpre]; simp
  rw [e]
  refine ⟨hne, hdig, ?_⟩
  unfold digitsValue
  rw [hval 0]; simp

theorem takeDigits_of_digits (cs : List Char) (h : ∀ c ∈ cs, isDecDigit c) :
    takeDigits cs = cs.map (fun c => c.toNat - 48) := by
  induction cs with
  | nil => rfl
  | cons c cs ih =>
    have hc : isDecDigit c := h c (List.mem_cons_self _ _)
    have hd : digitVal c = some (c.toNat - 48) := by
      unfold digitVal; exact if_pos hc
    simp only [takeDigits, hd, List.map]
    rw [ih (fun x hx => h x (List.mem_cons_of_mem _ hx))]

theorem isStrWhiteSpace_digit (c : Char) (h : isDecDigit c) : isStrWhiteSpace c = false := by
  unfold isDecDigit at h
  unfold isStrWhiteSpace
  simp only [Bool.or_eq_false_iff, decide_eq_false_iff_not, Bool.and_eq_false_imp,
    decide_eq_true_eq]
  omega

theorem digit_ne_minus (c : Char) (h : isDecDigit c) : c ≠ '-' := by
  intro e; subst e; unfold isDecDigit at h; revert h; decide

theorem digit_ne_plus (c : Char) (h : isDecDigit c) : c ≠ '+' := by
  intro e; subst e; unfold isDecDigit at h; revert h; decide

/-- `parseInt` reads back the decimal rendering of a natural number. -/
theorem parseInt_toString (n : Nat) : parseInt (toString n).toList = some (n : Int) := by
  obtain ⟨hne, hdig, hval⟩ := repr_digits n
  generalize (toString n).toList = cs at hne hdig hval
  cases cs with
  | nil => exact absurd rfl hne
  | cons c cs =>
    have hc : isDecDigit c := hdig c (List.mem_cons_self _ _)
    have hws := isStrWhiteSpace_digit c hc
    have h1 := digit_ne_minus c hc
    have h2 := digit_ne_plus c hc
    have htd := takeDigits_of_digits (c :: cs) hdig
    unfold parseInt
    simp only [List.dropWhile, hws, h1, h2, if_false, htd, hval]
    simp

theorem stripFront_append (pat s : List Char) : stripFront pat (pat ++ s) = some s := by
  induction pat with
  | nil => cases s <;> rfl
  | cons p ps ih => simp [stripFront, ih]

theorem replaceFirst_front (pat s : List Char) : replaceFirst pat [] (pat ++ s) = s := by
  cases h : pat ++ s with
  | nil =>
    have hp : pat = [] := (List.append_eq_nil.mp h).1
    have hs : s = [] := (List.append_eq_nil.mp h).2
    subst hp; subst hs
    rfl
  | cons c cs =>
    have := stripFront_append pat s
    rw [h] at this
    simp [replaceFirst, this]

theorem splitOn_no_sep (sep : Char) (cs : List Char) (h : sep ∉ cs) : splitOn sep cs = [cs] := by
  induction cs with
  | nil => rfl
  | cons c cs ih =>
    have hc : c ≠ sep := fun e => h (e ▸ List.mem_cons_self _ _)
    have ht : sep ∉ cs := fun m => h (List.mem_cons_of_mem _ m)
    simp [splitOn, hc, ih ht]

theorem splitOn_append_sep (sep : Char) (a b : List Char) (h : sep ∉ a) :
    splitOn sep (a ++ sep :: b) = a :: splitOn sep b := by
  induction a with
  | nil => simp [splitOn]
  | cons c cs ih =>
    have hc : c ≠ sep := fun e => h (e ▸ List.mem_cons_self _ _)
    have ht : sep ∉ cs := fun m => h (List.mem_cons_of_mem _ m)
    simp [splitOn, hc, ih ht]

theorem numToString_natCast (n : Nat) : numToString (n : Int) = toString n := rfl

theorem minus_not_mem_toString (n : Nat) : '-' ∉ (toString n).toList := fun h =>
  digit_ne_minus _ ((repr_digits n).2.1 _ h) rfl

/-- The range branch on a header `bytes=a-b` with `a ≤ b < size`. -/
theorem serveRange_wellformed (res : Response) (filePath : String) (size a b : Nat)
    (hab : a ≤ b) (hb : b < size) :
    serveRange res filePath size ("bytes=" ++ toString a ++ "-" ++ toString b) =
      ({ res with
          status := 206
          contentLength := some ((b : Int) - (a : Int) + 1)
          contentRange := some ("bytes " ++ toString a ++ "-" ++ toString b ++ "/" ++
            toString size)
          body := Body.file filePath (some ((a : Int), (b : Int))) },
       [FsOp.createReadStream filePath (some ((a : Int), (b : Int)))]) := by
  have hl : ("bytes=" ++ toString a ++ "-" ++ toString b).toList =
      "bytes=".toList ++ ((toString a).toList ++ '-' :: (toString b).toList) := by
    simp [String.toList, String.data_append]
  have hbne : (toString b).toList ≠ [] := (repr_digits b).1
  have hg : ¬ (((a : Int) > (b : Int)) ∨ ((a : Int) ≥ (size : Int))) := by omega
  unfold serveRange
  rw [hl, replaceFirst_front, splitOn_append_sep _ _ _ (minus_not_mem_toString a),
    splitOn_no_sep _ _ (minus_not_mem_toString b)]
  simp only [List.headD, List.get?, parseInt_toString, hbne, ne_eq, not_false_eq_true, if_true,
    hg, if_false, numToString_natCast]

theorem rangeHeader_ne_empty (a b : Nat) : "bytes=" ++ toString a ++ "-" ++ toString b ≠ "" := by
  intro h
  have := congrArg String.length h
  simp only [String.length_append] at this
  have h1 : "-".length = 1 := rfl
  have h2 : "".length = 0 := rfl
  omega

end AsyncCSV

/-! ## Properties of the download handler -/

/-- C1: the range check of the non-gzip path lets a range whose end lies past
the end of the file through. For `Range: bytes=0-5000` on a completed 1000-byte
file the handler answers `206` with `Content-Length: 5001` and
`Content-Range: bytes 0-5000/1000` and opens a read of the slice `[0, 5000]`,
where a `416` with no body and no file read is called for. -/
theorem range_end_past_file_is_served :
    AsyncCSV.download (AsyncCSV.completedWorld 1000)
        { id := "1", acceptEncoding := none, range := some "bytes=0-5000" } =
      ({ status := 206
         contentType := some "text/csv"
         contentDisposition := some "attachment; filename=\"export_1.csv\""
         acceptRanges := some "bytes"
         contentLength := some 5001
         contentRange := some "bytes 0-5000/1000"
         body := AsyncCSV.Body.file "/exports/export_1.csv" (some (0, 5000)) },
       [AsyncCSV.FsOp.existsSync "/exports/export_1.csv",
        AsyncCSV.FsOp.statSync "/exports/export_1.csv",
        AsyncCSV.FsOp.createReadStream "/exports/export_1.csv" (some (0, 5000))]) := by
  decide

/-- C2: on the non-gzip path, for a completed job whose file exists and has
`S` bytes, the header `Range: bytes=a-b` with `a ≤ b < S` is answered with
status `206`, `Content-Range: bytes a-b/S`, `Content-Length: b - a + 1`, and the
file is read for exactly the inclusive slice `[a, b]`. -/
theorem wellformed_range_is_served (w : AsyncCSV.World) (req : AsyncCSV.Request)
    (row : AsyncCSV.ExportRow) (a b : Nat)
    (hrow : w.db req.id = some row) (hstatus : row.status = "completed")
    (hfile : w.fileExists row.file_path = true)
    (hgzip : AsyncCSV.includes (req.acceptEncoding.getD "").toList "gzip".toList = false)
    (hrange : req.range = some ("bytes=" ++ toString a ++ "-" ++ toString b))
    (hab : a ≤ b) (hb : b < w.fileSize row.file_path) :
    (AsyncCSV.download w req).1.status = 206 ∧
    (AsyncCSV.download w req).1.contentRange =
      some ("bytes " ++ toString a ++ "-" ++ toString b ++ "/" ++
        toString (w.fileSize row.file_path)) ∧
    (AsyncCSV.download w req).1.contentLength = some ((b : Int) - (a : Int) + 1) ∧
    (AsyncCSV.download w req).1.contentEncoding = none ∧
    (AsyncCSV.download w req).1.body =
      AsyncCSV.Body.file row.file_path (some ((a : Int), (b : Int))) ∧
    (AsyncCSV.download w req).2 =
      [AsyncCSV.FsOp.existsSync row.file_path, AsyncCSV.FsOp.statSync row.file_path,
       AsyncCSV.FsOp.createReadStream row.file_path (some ((a : Int), (b : Int)))] := by
  have hne := AsyncCSV.rangeHeader_ne_empty a b
  have hs := AsyncCSV.serveRange_wellformed
    { contentType := some "text/csv"
      contentDisposition := some ("attachment; filename=\"export_" ++ req.id ++ ".csv\"")
      acceptRanges := some "bytes" } row.file_path (w.fileSize row.file_path) a b hab hb
  unfold AsyncCSV.download
  simp only [hrow, hstatus, hfile, hgzip, hrange, hne, hs, ne_eq, not_true_eq_false,
    not_false_eq_true, if_true, if_false, Bool.not_true, Bool.false_eq_true, List.cons_append,
    List.nil_append, and_self]

/-- C2, at `Range: bytes=0-99` on a completed 1000-byte file. -/
theorem wellformed_range_is_served_witness :
    (AsyncCSV.download (AsyncCSV.completedWorld 1000)
        { id := "1", acceptEncoding := none, range := some "bytes=0-99" }).1.status = 206 ∧
    (AsyncCSV.download (AsyncCSV.completedWorld 1000)
        { id := "1", acceptEncoding := none, range := some "bytes=0-99" }).1.contentRange =
      some "bytes 0-99/1000" ∧
    (AsyncCSV.download (AsyncCSV.completedWorld 1000)
        { id := "1", acceptEncoding := none, range := some "bytes=0-99" }).1.contentLength =
      some 100 := by
  have h := wellformed_range_is_served (AsyncCSV.completedWorld 1000)
    { id := "1", acceptEncoding := none, range := some "bytes=0-99" }
    { file_path := "/exports/export_1.csv", status := "completed" } 0 99
    rfl rfl rfl (by decide) (by decide) (by decide) (by decide)
  exact ⟨h.1, h.2.1, h.2.2.1⟩

/-- C9: on the non-gzip path the `Content-Length` of a range delivery is not
exact when the range ends past the end of the file. For `Range: bytes=500-1500`
without `Accept-Encoding` on a completed 1000-byte file the response is not
gzip-encoded, has status `206`, `Content-Length: 1001` and
`Content-Range: bytes 500-1500/1000`, and reads the slice `[500, 1500]`, which
holds 500 bytes of the file. -/
theorem range_content_length_exceeds_slice :
    AsyncCSV.includes
        ((({ id := "1", acceptEncoding := none, range := some "bytes=500-1500" } :
          AsyncCSV.Request).acceptEncoding).getD "").toList "gzip".toList = false ∧
    AsyncCSV.download (AsyncCSV.completedWorld 1000)
        { id := "1", acceptEncoding := none, range := some "bytes=500-1500" } =
      ({ status := 206
         contentType := some "text/csv"
         contentDisposition := some "attachment; filename=\"export_1.csv\""
         acceptRanges := some "bytes"
         contentEncoding := none
         contentLength := some 1001
         contentRange := some "bytes 500-1500/1000"
         body := AsyncCSV.Body.file "/exports/export_1.csv" (some (500, 1500)) },
       [AsyncCSV.FsOp.existsSync "/exports/export_1.csv",
        AsyncCSV.FsOp.statSync "/exports/export_1.csv",
        AsyncCSV.FsOp.createReadStream "/exports/export_1.csv" (some (500, 1500))]) ∧
    AsyncCSV.bytesInSlice 1000 (500, 1500) = 500 := by
  decide

/-- C10: the download handler tells "not ready" from "not found". An unknown
job id gives `404` "not found"; a known job whose status is not `completed`
gives `425` "export not ready", with no call into the file system; a
`completed` job whose file is missing gives `404` "file missing", the only
file-system call being the existence test; and a file is read or sent only for
a job whose status is `completed` and whose file exists. -/
theorem download_not_ready_vs_not_found (w : AsyncCSV.World) (req : AsyncCSV.Request) :
    (w.db req.id = none →
      AsyncCSV.download w req = ({ status := 404, body := AsyncCSV.Body.json "not found" }, [])) ∧
    (∀ row, w.db req.id = some row → row.status ≠ "completed" →
      AsyncCSV.download w req =
        ({ status := 425, body := AsyncCSV.Body.json "export not ready" }, [])) ∧
    (∀ row, w.db req.id = some row → row.status = "completed" →
      w.fileExists row.file_path = false →
      AsyncCSV.download w req =
        ({ status := 404, body := AsyncCSV.Body.json "file missing" },
         [AsyncCSV.FsOp.existsSync row.file_path])) ∧
    (((∃ path slice, AsyncCSV.FsOp.createReadStream path slice ∈ (AsyncCSV.download w req).2) ∨
      (∃ path slice, (AsyncCSV.download w req).1.body = AsyncCSV.Body.file path slice) ∨
      (∃ path, (AsyncCSV.download w req).1.body = AsyncCSV.Body.gzipFile path)) →
      ∃ row, w.db req.id = some row ∧ row.status = "completed" ∧
        w.fileExists row.file_path = true) := by
  refine ⟨fun h => ?_, fun row h hs => ?_, fun row h hs hf => ?_, fun hserved => ?_⟩
  · unfold AsyncCSV.download; simp only [h]
  · unfold AsyncCSV.download; simp only [h, hs, ne_eq, not_false_eq_true, if_true]
  · unfold AsyncCSV.download
    simp only [h, hs, hf, ne_eq, not_true_eq_false, if_false, Bool.not_false, if_true]
  · rcases h : w.db req.id with _ | row
    · exfalso
      unfold AsyncCSV.download at hserved
      simp [h] at hserved
    · by_cases hs : row.status = "completed"
      · by_cases hf : w.fileExists row.file_path = true
        · exact ⟨row, rfl, hs, hf⟩
        · exfalso
          unfold AsyncCSV.download at hserved
          simp [h, hs, hf] at hserved
      · exfalso
        unfold AsyncCSV.download at hserved
        simp [h, hs] at hserved

/-- C10, at a job in `processing` status: the answer is `425`, not `404`. -/
theorem download_not_ready_vs_not_found_witness :
    AsyncCSV.download
        { db := fun _ => some { file_path := "/exports/export_1.csv", status := "processing" }
          fileExists := fun _ => false
          fileSize := fun _ => 0 }
        { id := "1", acceptEncoding := none, range := none } =
      ({ status := 425, body := AsyncCSV.Body.json "export not ready" }, []) :=
  (download_not_ready_vs_not_found
    { db := fun _ => some { file_path := "/exports/export_1.csv", status := "processing" }
      fileExists := fun _ => false
      fileSize := fun _ => 0 }
    { id := "1", acceptEncoding := none, range := none }).2.1
    { file_path := "/exports/export_1.csv", status := "processing" } rfl (by decide)

/-! ## Properties of the filter clause -/

/-- C6 as stated fails: `min_ltv = 0` is a supplied value, yet it contributes
no clause and no parameter, and the count query carries no `WHERE`; the same
holds for a `country_code` supplied as the empty string. -/
theorem zero_min_ltv_contributes_no_clause :
    (AsyncCSV.buildWhere { min_ltv := AsyncCSV.JsVal.num 0 }).where_ = [] ∧
    (AsyncCSV.buildWhere { min_ltv := AsyncCSV.JsVal.num 0 }).params = [] ∧
    AsyncCSV.countQuery { min_ltv := AsyncCSV.JsVal.num 0 } =
      { sql := "SELECT COUNT(*)::bigint as cnt FROM users ", params := [] } ∧
    AsyncCSV.countQuery { country_code := AsyncCSV.JsVal.str "" } =
      { sql := "SELECT COUNT(*)::bigint as cnt FROM users ", params := [] } := by
  decide

/-- C6, amended: a filter is present when its value is truthy. The builder
yields exactly one clause per present filter, in the order `country_code`,
`subscription_tier`, `lifetime_value`, with placeholders `$1..$n`, and the
parameters are the present filters' values in the same order; the clause text
is the clauses joined by ` AND ` behind `WHERE`, and empty with no filter
present. The count query and the row query of a run carry this same clause and
these same parameters. -/
theorem where_clause_of_present_filters (job : AsyncCSV.Job) (env : AsyncCSV.Env) :
    (AsyncCSV.buildWhere job.filters).where_ =
      AsyncCSV.numberClauses 1 (AsyncCSV.presentFilters job.filters) ∧
    (AsyncCSV.buildWhere job.filters).params =
      (AsyncCSV.presentFilters job.filters).map (fun p => p.2) ∧
    AsyncCSV.whereSql (AsyncCSV.buildWhere job.filters).where_ =
      AsyncCSV.specWhereSql (AsyncCSV.presentFilters job.filters) ∧
    AsyncCSV.countQuery job.filters =
      { sql := "SELECT COUNT(*)::bigint as cnt FROM users " ++
          AsyncCSV.specWhereSql (AsyncCSV.presentFilters job.filters)
        params := (AsyncCSV.presentFilters job.filters).map (fun p => p.2) } ∧
    AsyncCSV.rowQuery job.filters job.columns =
      { sql := "SELECT " ++ ", ".intercalate (AsyncCSV.selectColumns job.columns) ++
          " FROM users " ++ AsyncCSV.specWhereSql (AsyncCSV.presentFilters job.filters)
        params := (AsyncCSV.presentFilters job.filters).map (fun p => p.2) } ∧
    (∀ q ∈ (AsyncCSV.startExport job env).queries,
      q = AsyncCSV.countQuery job.filters ∨ q = AsyncCSV.rowQuery job.filters job.columns) := by
  have key : (AsyncCSV.buildWhere job.filters).where_ =
        AsyncCSV.numberClauses 1 (AsyncCSV.presentFilters job.filters) ∧
      (AsyncCSV.buildWhere job.filters).params =
        (AsyncCSV.presentFilters job.filters).map (fun p => p.2) ∧
      AsyncCSV.whereSql (AsyncCSV.buildWhere job.filters).where_ =
        AsyncCSV.specWhereSql (AsyncCSV.presentFilters job.filters) := by
    unfold AsyncCSV.buildWhere AsyncCSV.presentFilters AsyncCSV.pushFilter
    cases h1 : AsyncCSV.truthy job.filters.country_code <;>
    cases h2 : AsyncCSV.truthy job.filters.subscription_tier <;>
    cases h3 : AsyncCSV.truthy job.filters.min_ltv <;>
    simp [List.filter, h1, h2, h3, AsyncCSV.numberClauses, AsyncCSV.whereSql,
      AsyncCSV.specWhereSql]
  obtain ⟨k1, k2, k3⟩ := key
  refine ⟨k1, k2, k3, ?_, ?_, ?_⟩
  · unfold AsyncCSV.countQuery; simp only [k2, k3]
  · unfold AsyncCSV.rowQuery; simp only [k2, k3]
  · intro q hq
    unfold AsyncCSV.startExport at hq
    cases hc : env.count with
    | error err => simp [hc] at hq; exact Or.inl hq
    | ok total => simp [hc] at hq; exact hq

/-! ## Lemmas on the streaming phase -/

namespace AsyncCSV

theorem foldl_applyEffect_vars (effs : List Effect) (s : PipeState) :
    (effs.foldl applyEffect s).vars = s.vars := by
  induction effs generalizing s with
  | nil => rfl
  | cons e effs ih =>
    simp only [List.foldl, ih]
    cases e <;> simp only [applyEffect] <;> split <;> rfl

theorem step_vars (s : PipeState) (e : Event) : (step s e).vars = (handle s.vars e).1 := by
  unfold step
  simp only [foldl_applyEffect_vars]

theorem handle_cancelled_mono (v : Vars) (e : Event) (h : v.cancelled = true) :
    (handle v e).1.cancelled = true := by
  cases e <;> simp [handle, h]

theorem step_cancelled_mono (s : PipeState) (e : Event) (h : s.vars.cancelled = true) :
    (step s e).vars.cancelled = true := by
  rw [step_vars]; exact handle_cancelled_mono _ _ h

theorem step_cancel (s : PipeState) : (step s Event.cancel).vars.cancelled = true := by
  rw [step_vars]; rfl

theorem runUntilSettled_cons (s : PipeState) (e : Event) (es : List Event) :
    runUntilSettled s (e :: es) =
      if (step s e).settled.isSome then step s e else runUntilSettled (step s e) es := rfl

theorem runUntilSettled_cancelled_mono (es : List Event) (s : PipeState)
    (h : s.vars.cancelled = true) : (runUntilSettled s es).vars.cancelled = true := by
  induction es generalizing s with
  | nil => exact h
  | cons e es ih =>
    rw [runUntilSettled_cons]
    split
    · exact step_cancelled_mono s e h
    · exact ih _ (step_cancelled_mono s e h)

theorem runUntilSettled_append (pre es : List Event) (s : PipeState)
    (h : (runUntilSettled s pre).settled = none) :
    runUntilSettled s (pre ++ es) = runUntilSettled (runUntilSettled s pre) es := by
  induction pre generalizing s with
  | nil => rfl
  | cons e pre ih =>
    rw [runUntilSettled_cons] at h
    rw [List.cons_append, runUntilSettled_cons, runUntilSettled_cons]
    by_cases hs : (step s e).settled.isSome = true
    · rw [if_pos hs] at h
      rw [h] at hs
      exact absurd hs (by simp)
    · rw [if_neg hs] at h
      rw [if_neg hs, if_neg hs]
      exact ih _ h

theorem statusWrites_append (a b : List Update) :
    statusWrites (a ++ b) = statusWrites a ++ statusWrites b := by
  unfold statusWrites; exact List.filterMap_append _ _ _

theorem statusWrites_checkpoints (cps : List Nat) :
    statusWrites (cps.map (fun n => ({ processed_rows := some n } : Update))) = [] := by
  induction cps with
  | nil => rfl
  | cons c cs ih =>
    unfold statusWrites at ih ⊢
    simp only [List.map, List.filterMap_cons, ih]

/-- The statuses written by a run whose count query succeeded. -/
theorem statusWrites_startExport_ok (job : Job) (env : Env) (total : Nat)
    (h : env.count = Except.ok total) :
    statusWrites (startExport job env).updates =
      "processing" :: statusWrites (terminalUpdate total (runUntilSettled {} env.events)).toList := by
  unfold startExport
  simp only [h, statusWrites_append, statusWrites_checkpoints, List.append_nil]
  rfl

theorem final_startExport_ok (job : Job) (env : Env) (total : Nat)
    (h : env.count = Except.ok total) :
    (startExport job env).final = runUntilSettled {} env.events := by
  unfold startExport
  simp only [h]

theorem catchBlock_status (err : JsError) :
    (catchBlock err).status = some "cancelled" ∨ (catchBlock err).status = some "failed" := by
  unfold catchBlock
  split
  · left; rfl
  · right; rfl

theorem terminalUpdate_status (total : Nat) (s : PipeState) (u : Update)
    (h : terminalUpdate total s = some u) :
    ∃ t, u.status = some t ∧ isTerminal t = true := by
  unfold terminalUpdate at h
  split at h
  · exact absurd h (by simp)
  · split at h <;> simp only [Option.some.injEq] at h <;> subst h
    · exact ⟨"completed", rfl, by decide⟩
    · exact ⟨"cancelled", rfl, by decide⟩
  · simp only [Option.some.injEq] at h
    subst h
    rcases catchBlock_status ‹JsError› with hc | hc
    · exact ⟨"cancelled", hc, by decide⟩
    · exact ⟨"failed", hc, by decide⟩

/-- The rows an event submits to the sink. -/
theorem step_sink (s : PipeState) (e : Event) :
    (step s e).sink = s.sink ++ (if s.vars.cancelled then [] else dataRows [e]) := by
  cases e with
  | data row writeOk =>
    unfold step handle
    by_cases hc : s.vars.cancelled = true
    · simp [hc]
    · simp only [hc, if_false]
      cases writeOk <;> by_cases hm : (s.vars.processed + 1) % 1000 = 0 <;>
        simp [hm, applyEffect, dataRows]
  | drain =>
    unfold step handle
    by_cases hc : s.vars.cancelled = true <;> simp [hc, applyEffect, dataRows]
  | sourceEnd =>
    unfold step handle
    by_cases hc : s.vars.cancelled = true <;> simp [hc, applyEffect, dataRows]
  | cancel =>
    unfold step handle
    by_cases hc : s.vars.cancelled = true <;> simp [hc, applyEffect, dataRows]
  | finish =>
    unfold step handle
    by_cases hc : s.vars.cancelled = true <;> cases hs : s.settled <;>
      simp [hc, hs, applyEffect, dataRows]
  | writeError err =>
    unfold step handle
    by_cases hc : s.vars.cancelled = true <;> cases hs : s.settled <;>
      simp [hc, hs, applyEffect, dataRows]
  | streamError err =>
    unfold step handle
    by_cases hc : s.vars.cancelled = true <;> cases hs : s.settled <;>
      simp [hc, hs, applyEffect, dataRows]
  | csvError err =>
    unfold step handle
    by_cases hc : s.vars.cancelled = true <;> cases hs : s.settled <;>
      simp [hc, hs, applyEffect, dataRows]

/-- The counter after an event. -/
theorem step_processed (s : PipeState) (e : Event) :
    (step s e).vars.processed =
      s.vars.processed + (if s.vars.cancelled then 0 else (dataRows [e]).length) := by
  rw [step_vars]
  cases e <;> by_cases hc : s.vars.cancelled = true <;> simp [handle, hc, dataRows]

/-- Whether the cursor is flowing after an event. -/
theorem step_flowing (s : PipeState) (e : Event) :
    (step s e).flowing =
      match e with
      | Event.data _ writeOk => if s.vars.cancelled then s.flowing else (writeOk && s.flowing)
      | Event.drain => if s.vars.cancelled then s.flowing else true
      | _ => s.flowing := by
  cases e with
  | data row writeOk =>
    unfold step handle
    by_cases hc : s.vars.cancelled = true
    · simp [hc]
    · simp only [hc, if_false]
      cases writeOk <;> by_cases hm : (s.vars.processed + 1) % 1000 = 0 <;>
        simp [hm, applyEffect]
  | drain =>
    unfold step handle
    by_cases hc : s.vars.cancelled = true <;> simp [hc, applyEffect]
  | sourceEnd =>
    unfold step handle
    by_cases hc : s.vars.cancelled = true <;> simp [hc, applyEffect]
  | cancel =>
    unfold step handle
    simp [applyEffect]
  | finish =>
    unfold step handle
    cases hs : s.settled <;> simp [hs, applyEffect]
  | writeError err =>
    unfold step handle
    cases hs : s.settled <;> simp [hs, applyEffect]
  | streamError err =>
    unfold step handle
    cases hs : s.settled <;> simp [hs, applyEffect]
  | csvError err =>
    unfold step handle
    cases hs : s.settled <;> simp [hs, applyEffect]

theorem run_cons (s : PipeState) (e : Event) (es : List Event) :
    run s (e :: es) = run (step s e) es := rfl

theorem run_append (s : PipeState) (a b : List Event) :
    run s (a ++ b) = run (run s a) b := by
  unfold run; exact List.foldl_append _ _ _ _

theorem run_cancelled_mono (es : List Event) (s : PipeState) (h : s.vars.cancelled = true) :
    (run s es).vars.cancelled = true := by
  induction es generalizing s with
  | nil => exact h
  | cons e es ih => rw [run_cons]; exact ih _ (step_cancelled_mono s e h)

theorem runUntilSettled_eq_run (es : List Event) (s : PipeState) :
    runUntilSettled s es = run s (handled s es) := by
  induction es generalizing s with
  | nil => rfl
  | cons e es ih =>
    rw [runUntilSettled_cons]
    unfold handled
    simp only
    split
    · rfl
    · rw [run_cons]; exact ih _

/-- The counter counts the rows submitted to the sink. -/
theorem run_processed (es : List Event) (s : PipeState) (h : s.vars.processed = s.sink.length) :
    (run s es).vars.processed = (run s es).sink.length := by
  induction es generalizing s with
  | nil => exact h
  | cons e es ih =>
    rw [run_cons]
    apply ih
    rw [step_processed, step_sink, List.length_append, h]
    split <;> rfl

/-- A run that ends uncancelled has submitted every delivered row, in order. -/
theorem run_sink (es : List Event) (s : PipeState) (h : (run s es).vars.cancelled = false) :
    (run s es).sink = s.sink ++ dataRows es := by
  induction es generalizing s with
  | nil => simp [run, dataRows]
  | cons e es ih =>
    rw [run_cons] at h ⊢
    have hs : s.vars.cancelled = false := by
      cases hc : s.vars.cancelled
      · rfl
      · rw [run_cancelled_mono es _ (step_cancelled_mono s e hc)] at h
        exact absurd h (by simp)
    rw [ih _ h, step_sink, hs]
    simp only [Bool.false_eq_true, if_false, List.append_assoc]
    congr 1
    unfold dataRows
    cases e <;> simp

theorem admissible_cons (s : PipeState) (e : Event) (es : List Event) :
    admissible s (e :: es) = (deliverable s e && admissible (step s e) es) := rfl

theorem admissible_append (a b : List Event) (s : PipeState) :
    admissible s (a ++ b) = (admissible s a && admissible (run s a) b) := by
  induction a generalizing s with
  | nil => simp [admissible, run]
  | cons e es ih =>
    rw [List.cons_append, admissible_cons, admissible_cons, run_cons, ih, Bool.and_assoc]

/-- While the cursor is paused and no `drain` arrives, no row is delivered,
nothing is submitted to the sink, and the cursor stays paused. -/
theorem paused_until_drain (mid : List Event) (s : PipeState) (hp : s.flowing = false)
    (ha : admissible s mid = true) (hd : ∀ e ∈ mid, e ≠ Event.drain) :
    (∀ e ∈ mid, isData e = false) ∧ (run s mid).sink = s.sink ∧ (run s mid).flowing = false := by
  induction mid generalizing s with
  | nil => exact ⟨fun e he => absurd he (List.not_mem_nil e), rfl, hp⟩
  | cons e es ih =>
    rw [admissible_cons, Bool.and_eq_true] at ha
    obtain ⟨hdel, hrest⟩ := ha
    have hne : e ≠ Event.drain := hd e (List.mem_cons_self _ _)
    have hnd : isData e = false := by
      cases e <;> first | rfl | (simp only [deliverable] at hdel; rw [hp] at hdel; cases hdel)
    have hfl : (step s e).flowing = false := by
      rw [step_flowing]
      cases e <;> first | exact hp | exact absurd rfl hne | cases hnd
    have hsink : (step s e).sink = s.sink := by
      rw [step_sink]
      cases e <;> first | (simp [dataRows]; done) | cases hnd
    obtain ⟨h1, h2, h3⟩ := ih (step s e) hfl hrest (fun x hx => hd x (List.mem_cons_of_mem _ hx))
    refine ⟨?_, ?_, ?_⟩
    · intro x hx
      rcases List.mem_cons.mp hx with rfl | hx
      · exact hnd
      · exact h1 x hx
    · rw [run_cons, h2, hsink]
    · rw [run_cons]; exact h3

theorem catchBlock_of_not_includes (err : JsError)
    (h : includes (errToString err).toList "cancelled".toList = false) :
    catchBlock err = failedUpdate err := by
  simp only [catchBlock, h, Bool.false_eq_true, if_false]

theorem catchBlock_of_includes (err : JsError)
    (h : includes (errToString err).toList "cancelled".toList = true) :
    catchBlock err = cancelledUpdate := by
  simp only [catchBlock, h, if_true]

theorem statusWrites_singleton (u : Update) (t : String) (h : u.status = some t) :
    statusWrites [u] = [t] := by
  simp [statusWrites, h]

/-- A terminal update writes `completed` only after the promise resolved
with the job not cancelled. -/
theorem terminalUpdate_completed (total : Nat) (s : PipeState)
    (h : "completed" ∈ statusWrites (terminalUpdate total s).toList) :
    s.settled = some Settlement.resolved ∧ s.vars.cancelled = false := by
  unfold terminalUpdate at h
  split at h
  · exact absurd h (by simp [statusWrites])
  · rename_i hs
    cases hcan : s.vars.cancelled
    · exact ⟨hs, rfl⟩
    · exfalso
      simp only [hcan, Bool.not_true, Bool.false_eq_true, if_false, Option.toList] at h
      revert h; decide
  · rename_i err hs
    exfalso
    simp only [Option.toList] at h
    rcases catchBlock_status err with hc | hc <;>
      rw [statusWrites_singleton _ _ hc] at h <;> revert h <;> decide

end AsyncCSV

/-! ## Properties of the export pipeline -/

/-- C8: backpressure in the handlers' state machine. A handler pauses the
cursor exactly when it submits a row to the CSV sink and the submission reports
saturation; a row is submitted exactly by a `data` event handled while the job
is not cancelled; the cursor is resumed exactly by a `drain` event handled
while the job is not cancelled. Consequently, in every sequence of events that
respects the delivery contract of the cursor, after a saturated submission and
as long as no `drain` arrives, no `data` event is delivered, the sink receives
no further row, and the cursor stays paused. -/
theorem backpressure_protocol :
    (∀ (v : AsyncCSV.Vars) (e : AsyncCSV.Event),
      AsyncCSV.Effect.pause ∈ (AsyncCSV.handle v e).2 ↔
        ∃ row, e = AsyncCSV.Event.data row false ∧ v.cancelled = false) ∧
    (∀ (v : AsyncCSV.Vars) (e : AsyncCSV.Event) (row : AsyncCSV.UserRow),
      AsyncCSV.Effect.write row ∈ (AsyncCSV.handle v e).2 ↔
        ∃ ok, e = AsyncCSV.Event.data row ok ∧ v.cancelled = false) ∧
    (∀ (v : AsyncCSV.Vars) (e : AsyncCSV.Event),
      AsyncCSV.Effect.resume ∈ (AsyncCSV.handle v e).2 ↔
        e = AsyncCSV.Event.drain ∧ v.cancelled = false) ∧
    (∀ (s : AsyncCSV.PipeState) (pre mid : List AsyncCSV.Event) (row : AsyncCSV.UserRow),
      AsyncCSV.admissible s (pre ++ AsyncCSV.Event.data row false :: mid) = true →
      (AsyncCSV.run s pre).vars.cancelled = false →
      (∀ e ∈ mid, e ≠ AsyncCSV.Event.drain) →
      (∀ e ∈ mid, AsyncCSV.isData e = false) ∧
      (AsyncCSV.run s (pre ++ AsyncCSV.Event.data row false :: mid)).sink =
        (AsyncCSV.run s pre).sink ++ [row] ∧
      (AsyncCSV.run s (pre ++ AsyncCSV.Event.data row false :: mid)).flowing = false) := by
  refine ⟨?_, ?_, ?_, ?_⟩
  · intro v e
    cases e with
    | data row writeOk =>
      cases hc : v.cancelled <;> cases writeOk <;>
        by_cases hm : (v.processed + 1) % 1000 = 0 <;> simp [AsyncCSV.handle, hc, hm]
    | drain => cases hc : v.cancelled <;> simp [AsyncCSV.handle, hc]
    | sourceEnd => cases hc : v.cancelled <;> simp [AsyncCSV.handle, hc]
    | cancel => simp [AsyncCSV.handle]
    | finish => simp [AsyncCSV.handle]
    | writeError err => simp [AsyncCSV.handle]
    | streamError err => simp [AsyncCSV.handle]
    | csvError err => simp [AsyncCSV.handle]
  · intro v e row
    cases e with
    | data r writeOk =>
      cases hc : v.cancelled <;> cases writeOk <;>
        by_cases hm : (v.processed + 1) % 1000 = 0 <;> simp [AsyncCSV.handle, hc, hm] <;>
        exact eq_comm
    | drain => cases hc : v.cancelled <;> simp [AsyncCSV.handle, hc]
    | sourceEnd => cases hc : v.cancelled <;> simp [AsyncCSV.handle, hc]
    | cancel => simp [AsyncCSV.handle]
    | finish => simp [AsyncCSV.handle]
    | writeError err => simp [AsyncCSV.handle]
    | streamError err => simp [AsyncCSV.handle]
    | csvError err => simp [AsyncCSV.handle]
  · intro v e
    cases e with
    | data row writeOk =>
      cases hc : v.cancelled <;> cases writeOk <;>
        by_cases hm : (v.processed + 1) % 1000 = 0 <;> simp [AsyncCSV.handle, hc, hm]
    | drain => cases hc : v.cancelled <;> simp [AsyncCSV.handle, hc]
    | sourceEnd => cases hc : v.cancelled <;> simp [AsyncCSV.handle, hc]
    | cancel => simp [AsyncCSV.handle]
    | finish => simp [AsyncCSV.handle]
    | writeError err => simp [AsyncCSV.handle]
    | streamError err => simp [AsyncCSV.handle]
    | csvError err => simp [AsyncCSV.handle]
  · intro s pre mid row ha hc hd
    rw [AsyncCSV.admissible_append, Bool.and_eq_true, AsyncCSV.admissible_cons,
      Bool.and_eq_true] at ha
    obtain ⟨_, _, hmid⟩ := ha
    have hfl : (AsyncCSV.step (AsyncCSV.run s pre) (AsyncCSV.Event.data row false)).flowing
        = false := by
      rw [AsyncCSV.step_flowing]; simp [hc]
    have hsink : (AsyncCSV.step (AsyncCSV.run s pre) (AsyncCSV.Event.data row false)).sink
        = (AsyncCSV.run s pre).sink ++ [row] := by
      rw [AsyncCSV.step_sink]; simp [hc, AsyncCSV.dataRows]
    obtain ⟨h1, h2, h3⟩ := AsyncCSV.paused_until_drain mid _ hfl hmid hd
    rw [AsyncCSV.run_append, AsyncCSV.run_cons]
    exact ⟨h1, h2.trans hsink, h3⟩

/-- C8, on a run in which the second row saturates the sink and the cursor
ends before any `drain`. -/
theorem backpressure_protocol_witness :
    (AsyncCSV.run {} ([AsyncCSV.Event.data ["1"] true] ++
        AsyncCSV.Event.data ["2"] false :: [AsyncCSV.Event.sourceEnd])).sink =
      (AsyncCSV.run {} [AsyncCSV.Event.data ["1"] true]).sink ++ [["2"]] :=
  (backpressure_protocol.2.2.2 {} [AsyncCSV.Event.data ["1"] true] [AsyncCSV.Event.sourceEnd]
    ["2"] (by decide) (by decide) (by decide)).2.1

/-- C3 as stated fails: a query error whose text contains `cancelled` (here the
row query names a column `cancelled_at` that does not exist) is persisted as
`cancelled` although the cancel handle is never invoked. -/
theorem query_error_persisted_as_cancelled :
    AsyncCSV.Event.cancel ∉
      [AsyncCSV.Event.streamError
        { name := "error", message := "column \"cancelled_at\" does not exist" }] ∧
    AsyncCSV.statusWrites
      (AsyncCSV.startExport { id := "1", columns := some ["cancelled_at"] }
        { count := Except.ok 10
          events := [AsyncCSV.Event.streamError
            { name := "error", message := "column \"cancelled_at\" does not exist" }] }).updates =
      ["processing", "cancelled"] := by
  decide

/-- C3, amended: the `catch` block classifies an error by its text. For every
error that reaches it, from the count query or from the rejected promise, if
`String(err)` does not contain `cancelled` the last update persists status
`failed` with `String(err)` as the error description and no update of the run
writes `cancelled`; if `String(err)` contains `cancelled` the last update
persists `cancelled`. -/
theorem error_classified_by_text (job : AsyncCSV.Job) (env : AsyncCSV.Env)
    (err : AsyncCSV.JsError)
    (hreach : env.count = Except.error err ∨
      ∃ total, env.count = Except.ok total ∧
        (AsyncCSV.runUntilSettled {} env.events).settled =
          some (AsyncCSV.Settlement.rejected err)) :
    (AsyncCSV.includes (AsyncCSV.errToString err).toList "cancelled".toList = false →
      (AsyncCSV.startExport job env).updates.getLast? =
        some { status := some "failed", error := some (AsyncCSV.errToString err) } ∧
      "cancelled" ∉ AsyncCSV.statusWrites (AsyncCSV.startExport job env).updates) ∧
    (AsyncCSV.includes (AsyncCSV.errToString err).toList "cancelled".toList = true →
      (AsyncCSV.startExport job env).updates.getLast? = some AsyncCSV.cancelledUpdate) := by
  rcases hreach with hc | ⟨total, hc, hs⟩
  · have hu : (AsyncCSV.startExport job env).updates = [AsyncCSV.catchBlock err] := by
      unfold AsyncCSV.startExport; simp only [hc]
    rw [hu]
    refine ⟨fun h => ?_, fun h => ?_⟩
    · rw [AsyncCSV.catchBlock_of_not_includes err h,
        AsyncCSV.statusWrites_singleton _ "failed" rfl]
      exact ⟨rfl, by decide⟩
    · rw [AsyncCSV.catchBlock_of_includes err h]; rfl
  · have ht : AsyncCSV.terminalUpdate total (AsyncCSV.runUntilSettled {} env.events) =
        some (AsyncCSV.catchBlock err) := by
      unfold AsyncCSV.terminalUpdate; simp only [hs]
    have hw := AsyncCSV.statusWrites_startExport_ok job env total hc
    have hu : (AsyncCSV.startExport job env).updates.getLast? =
        some (AsyncCSV.catchBlock err) := by
      unfold AsyncCSV.startExport
      simp only [hc, ht, Option.toList, List.getLast?_append, List.getLast?_singleton,
        Option.or_some]
    rw [hu, hw, ht]
    refine ⟨fun h => ?_, fun h => ?_⟩
    · rw [AsyncCSV.catchBlock_of_not_includes err h, Option.toList,
        AsyncCSV.statusWrites_singleton _ "failed" rfl]
      exact ⟨rfl, by decide⟩
    · rw [AsyncCSV.catchBlock_of_includes err h]

/-- C3, amended, at a count query that fails with a connection error. -/
theorem error_classified_by_text_witness :
    (AsyncCSV.startExport { id := "1" }
      { count := Except.error { message := "connect ECONNREFUSED 127.0.0.1:5432" }
        events := [] }).updates.getLast? =
      some { status := some "failed"
             error := some "Error: connect ECONNREFUSED 127.0.0.1:5432" } :=
  ((error_classified_by_text { id := "1" }
    { count := Except.error { message := "connect ECONNREFUSED 127.0.0.1:5432" }, events := [] }
    { message := "connect ECONNREFUSED 127.0.0.1:5432" } (Or.inl rfl)).1 (by decide)).1

/-- C4 as stated fails on the error path: the cursor has ended, the cancel
handle is invoked while the file is still being flushed, and the write stream
then fails; the promise rejects with the disk error and the `catch` block
persists `failed`. -/
theorem cancel_then_write_error_persists_failed :
    (AsyncCSV.runUntilSettled {} [AsyncCSV.Event.sourceEnd]).settled = none ∧
    AsyncCSV.statusWrites
      (AsyncCSV.startExport { id := "1" }
        { count := Except.ok 5
          events := [AsyncCSV.Event.sourceEnd, AsyncCSV.Event.cancel,
            AsyncCSV.Event.writeError
              { message := "ENOSPC: no space left on device, write" }] }).updates =
      ["processing", "failed"] := by
  decide

/-- C4, amended: in every run in which the cancel handle is invoked after its
registration and before the promise settles, the handle sets the `cancelled`
flag, destroys the cursor with an error whose text is `Error: cancelled` and
ends the CSV sink; the flag is still set when the function leaves its `await`
and no update writes `completed`. On the normal path (the promise resolves) the
terminal status is `cancelled`. On the error path the `catch` block goes by the
text of the rejecting error: the terminal status is `cancelled` when the text
contains `cancelled` and `failed` when it does not; a rejection by the error
that the cancel handle passed to `stream.destroy` therefore ends `cancelled`. -/
theorem cancel_before_settlement (job : AsyncCSV.Job) (env : AsyncCSV.Env) (total : Nat)
    (pre post : List AsyncCSV.Event)
    (hcount : env.count = Except.ok total)
    (hevents : env.events = pre ++ AsyncCSV.Event.cancel :: post)
    (hpre : (AsyncCSV.runUntilSettled {} pre).settled = none) :
    (∃ err, AsyncCSV.handle (AsyncCSV.runUntilSettled {} pre).vars AsyncCSV.Event.cancel =
        ({ (AsyncCSV.runUntilSettled {} pre).vars with cancelled := true },
         [AsyncCSV.Effect.destroy err, AsyncCSV.Effect.csvEnd]) ∧
      AsyncCSV.errToString err = "Error: cancelled") ∧
    (AsyncCSV.startExport job env).final.vars.cancelled = true ∧
    "completed" ∉ AsyncCSV.statusWrites (AsyncCSV.startExport job env).updates ∧
    ((AsyncCSV.startExport job env).final.settled = some AsyncCSV.Settlement.resolved →
      AsyncCSV.statusWrites (AsyncCSV.startExport job env).updates =
        ["processing", "cancelled"]) ∧
    (∀ err, (AsyncCSV.startExport job env).final.settled =
        some (AsyncCSV.Settlement.rejected err) →
      (AsyncCSV.includes (AsyncCSV.errToString err).toList "cancelled".toList = true →
        AsyncCSV.statusWrites (AsyncCSV.startExport job env).updates =
          ["processing", "cancelled"]) ∧
      (AsyncCSV.includes (AsyncCSV.errToString err).toList "cancelled".toList = false →
        AsyncCSV.statusWrites (AsyncCSV.startExport job env).updates =
          ["processing", "failed"])) ∧
    (∀ err,
      AsyncCSV.Effect.destroy err ∈
        (AsyncCSV.handle (AsyncCSV.runUntilSettled {} pre).vars AsyncCSV.Event.cancel).2 →
      (AsyncCSV.startExport job env).final.settled =
        some (AsyncCSV.Settlement.rejected err) →
      AsyncCSV.statusWrites (AsyncCSV.startExport job env).updates =
        ["processing", "cancelled"]) := by
  have hfinal := AsyncCSV.final_startExport_ok job env total hcount
  have hw := AsyncCSV.statusWrites_startExport_ok job env total hcount
  have hcan : (AsyncCSV.runUntilSettled {} env.events).vars.cancelled = true := by
    rw [hevents, AsyncCSV.runUntilSettled_append _ _ _ hpre, AsyncCSV.runUntilSettled_cons]
    split
    · exact AsyncCSV.step_cancel _
    · exact AsyncCSV.runUntilSettled_cancelled_mono _ _ (AsyncCSV.step_cancel _)
  have herr : ∀ err, (AsyncCSV.runUntilSettled {} env.events).settled =
        some (AsyncCSV.Settlement.rejected err) →
      (AsyncCSV.includes (AsyncCSV.errToString err).toList "cancelled".toList = true →
        "processing" :: AsyncCSV.statusWrites
          (AsyncCSV.terminalUpdate total (AsyncCSV.runUntilSettled {} env.events)).toList =
          ["processing", "cancelled"]) ∧
      (AsyncCSV.includes (AsyncCSV.errToString err).toList "cancelled".toList = false →
        "processing" :: AsyncCSV.statusWrites
          (AsyncCSV.terminalUpdate total (AsyncCSV.runUntilSettled {} env.events)).toList =
          ["processing", "failed"]) := by
    intro err hs
    have ht : AsyncCSV.terminalUpdate total (AsyncCSV.runUntilSettled {} env.events) =
        some (AsyncCSV.catchBlock err) := by
      unfold AsyncCSV.terminalUpdate; simp only [hs]
    rw [ht]
    refine ⟨fun hinc => ?_, fun hinc => ?_⟩
    · rw [AsyncCSV.catchBlock_of_includes err hinc]; rfl
    · rw [AsyncCSV.catchBlock_of_not_includes err hinc, Option.toList,
        AsyncCSV.statusWrites_singleton _ "failed" rfl]
  rw [hfinal, hw]
  refine ⟨⟨{ message := "cancelled" }, rfl, by decide⟩, hcan, ?_, ?_, herr, ?_⟩
  · unfold AsyncCSV.terminalUpdate
    rcases hs : (AsyncCSV.runUntilSettled {} env.events).settled with _ | st
    · simp only [Option.toList]
      decide
    · cases st with
      | resolved =>
        simp only [hcan, Bool.not_true, Bool.false_eq_true, if_false, Option.toList]
        decide
      | rejected err =>
        simp only [Option.toList]
        rcases AsyncCSV.catchBlock_status err with h | h
        · rw [AsyncCSV.statusWrites_singleton _ _ h]; decide
        · rw [AsyncCSV.statusWrites_singleton _ _ h]; decide
  · intro hs
    unfold AsyncCSV.terminalUpdate
    simp only [hs, hcan, Bool.not_true, Bool.false_eq_true, if_false, Option.toList]
    rfl
  · intro err hmem hs
    have he : err = { message := "cancelled" } := by
      simp only [AsyncCSV.handle, List.mem_cons, AsyncCSV.Effect.destroy.injEq,
        List.mem_singleton, reduceCtorEq, List.not_mem_nil, or_false] at hmem
      exact hmem
    subst he
    exact (herr _ hs).1 (by decide)

/-- C4, amended, on a run cancelled after one row: the destroyed cursor
reports the error the cancel handle passed to it, the promise rejects with it,
and the run ends `cancelled`. -/
theorem cancel_before_settlement_witness :
    AsyncCSV.statusWrites
      (AsyncCSV.startExport { id := "1" }
        { count := Except.ok 5
          events := [AsyncCSV.Event.data ["1"] true] ++ AsyncCSV.Event.cancel ::
            [AsyncCSV.Event.streamError { message := "cancelled" }] }).updates =
      ["processing", "cancelled"] :=
  (cancel_before_settlement { id := "1" }
    { count := Except.ok 5
      events := [AsyncCSV.Event.data ["1"] true] ++ AsyncCSV.Event.cancel ::
        [AsyncCSV.Event.streamError { message := "cancelled" }] }
    5 [AsyncCSV.Event.data ["1"] true] [AsyncCSV.Event.streamError { message := "cancelled" }]
    rfl rfl (by decide)).2.2.2.2.2 { message := "cancelled" } (by decide) (by decide)

/-- C5 as stated fails: a `DELETE` for a job whose status is `completed` (it is
no longer registered, so no cancel handle is invoked) rewrites the status to
`cancelled`. -/
theorem delete_after_completion_rewrites_status :
    AsyncCSV.cancelJob [] "1" = [] ∧
    (AsyncCSV.deleteExport [] (fun _ => true) "1"
      (some { status := "completed", total_rows := some 5, processed_rows := some 5,
              completed_at := true, file_path := "/exports/export_1.csv" })).row =
      some { status := "cancelled", total_rows := some 5, processed_rows := some 5,
             completed_at := true, file_path := "/exports/export_1.csv" } := by
  decide

/-- C5, amended: within one run of `startExport` the status writes move
forward: `processing` at most once, then at most one terminal status, and
nothing after a terminal status. The `DELETE` handler answers `404` and writes
nothing for an unknown job, and for every known job it answers `204` and writes
`cancelled` over whatever status the row holds. -/
theorem status_writes_forward_within_run (job : AsyncCSV.Job) (env : AsyncCSV.Env)
    (activeJobs : List String) (fileExists : String → Bool) (id : String) :
    (AsyncCSV.statusWrites (AsyncCSV.startExport job env).updates = ["processing"] ∨
      ∃ t, AsyncCSV.isTerminal t = true ∧
        (AsyncCSV.statusWrites (AsyncCSV.startExport job env).updates = [t] ∨
         AsyncCSV.statusWrites (AsyncCSV.startExport job env).updates = ["processing", t])) ∧
    (AsyncCSV.deleteExport activeJobs fileExists id none).status = 404 ∧
    (AsyncCSV.deleteExport activeJobs fileExists id none).row = none ∧
    (∀ r : AsyncCSV.JobRecord,
      (AsyncCSV.deleteExport activeJobs fileExists id (some r)).status = 204 ∧
      (AsyncCSV.deleteExport activeJobs fileExists id (some r)).row =
        some { r with status := "cancelled" }) := by
  refine ⟨?_, rfl, rfl, fun r => ⟨rfl, rfl⟩⟩
  cases hc : env.count with
  | error err =>
    right
    have hu : (AsyncCSV.startExport job env).updates = [AsyncCSV.catchBlock err] := by
      unfold AsyncCSV.startExport; simp only [hc]
    rw [hu]
    rcases AsyncCSV.catchBlock_status err with h | h
    · exact ⟨"cancelled", by decide, Or.inl (AsyncCSV.statusWrites_singleton _ _ h)⟩
    · exact ⟨"failed", by decide, Or.inl (AsyncCSV.statusWrites_singleton _ _ h)⟩
  | ok total =>
    rw [AsyncCSV.statusWrites_startExport_ok job env total hc]
    rcases ht : AsyncCSV.terminalUpdate total (AsyncCSV.runUntilSettled {} env.events) with _ | u
    · left; rfl
    · right
      obtain ⟨t, h1, h2⟩ := AsyncCSV.terminalUpdate_status total _ u ht
      refine ⟨t, h2, Or.inr ?_⟩
      simp only [Option.toList, AsyncCSV.statusWrites_singleton _ _ h1]

/-- C7 as stated fails: the count query reports 5 rows, the cursor delivers 2
and ends, and the run persists `completed` with `processed_rows = 5` while the
counter and the sink hold 2 rows. -/
theorem completed_with_fewer_rows_than_counted :
    (AsyncCSV.startExport { id := "1" }
      { count := Except.ok 5
        events := [AsyncCSV.Event.data ["1"] true, AsyncCSV.Event.data ["2"] true,
          AsyncCSV.Event.sourceEnd, AsyncCSV.Event.finish] }).updates.getLast? =
      some { processed_rows := some 5, status := some "completed", completed_at := true } ∧
    (AsyncCSV.startExport { id := "1" }
      { count := Except.ok 5
        events := [AsyncCSV.Event.data ["1"] true, AsyncCSV.Event.data ["2"] true,
          AsyncCSV.Event.sourceEnd, AsyncCSV.Event.finish] }).final.vars.processed = 2 ∧
    (AsyncCSV.startExport { id := "1" }
      { count := Except.ok 5
        events := [AsyncCSV.Event.data ["1"] true, AsyncCSV.Event.data ["2"] true,
          AsyncCSV.Event.sourceEnd, AsyncCSV.Event.finish] }).final.sink = [["1"], ["2"]] := by
  decide

/-- C7, amended: for every run that persists `completed`, the count query
succeeded with some `totalRows`, the terminal update persists
`processed_rows = totalRows`, the promise resolved with the job not cancelled,
and the `processed` counter equals the number of rows submitted to the sink,
which are exactly the rows the cursor delivered before the write stream
finished, in order. The counter equals `totalRows` exactly when the cursor
delivered `totalRows` rows. -/
theorem completed_run_counts (job : AsyncCSV.Job) (env : AsyncCSV.Env)
    (hdone : "completed" ∈ AsyncCSV.statusWrites (AsyncCSV.startExport job env).updates) :
    ∃ total, env.count = Except.ok total ∧
      (AsyncCSV.startExport job env).updates.getLast? = some (AsyncCSV.completedUpdate total) ∧
      (AsyncCSV.completedUpdate total).processed_rows = some total ∧
      (AsyncCSV.startExport job env).final.settled = some AsyncCSV.Settlement.resolved ∧
      (AsyncCSV.startExport job env).final.vars.cancelled = false ∧
      (AsyncCSV.startExport job env).final.vars.processed =
        (AsyncCSV.startExport job env).final.sink.length ∧
      (AsyncCSV.startExport job env).final.sink =
        AsyncCSV.dataRows (AsyncCSV.handled {} env.events) ∧
      ((AsyncCSV.startExport job env).final.vars.processed = total ↔
        (AsyncCSV.dataRows (AsyncCSV.handled {} env.events)).length = total) := by
  cases hc : env.count with
  | error err =>
    exfalso
    have hu : (AsyncCSV.startExport job env).updates = [AsyncCSV.catchBlock err] := by
      unfold AsyncCSV.startExport; simp only [hc]
    rw [hu] at hdone
    rcases AsyncCSV.catchBlock_status err with h | h <;>
      rw [AsyncCSV.statusWrites_singleton _ _ h] at hdone <;> revert hdone <;> decide
  | ok total =>
    have hfinal := AsyncCSV.final_startExport_ok job env total hc
    rw [AsyncCSV.statusWrites_startExport_ok job env total hc] at hdone
    have hmem : "completed" ∈ AsyncCSV.statusWrites
        (AsyncCSV.terminalUpdate total (AsyncCSV.runUntilSettled {} env.events)).toList := by
      rcases List.mem_cons.mp hdone with h | h
      · exact absurd h (by decide)
      · exact h
    have hres := AsyncCSV.terminalUpdate_completed total _ hmem
    obtain ⟨hs, hcan⟩ := hres
    have ht : AsyncCSV.terminalUpdate total (AsyncCSV.runUntilSettled {} env.events) =
        some (AsyncCSV.completedUpdate total) := by
      unfold AsyncCSV.terminalUpdate
      simp only [hs, hcan, Bool.not_false, if_true]
    have hlast : (AsyncCSV.startExport job env).updates.getLast? =
        some (AsyncCSV.completedUpdate total) := by
      unfold AsyncCSV.startExport
      simp only [hc, ht, Option.toList, List.getLast?_append, List.getLast?_singleton,
        Option.or_some]
    have hrun := AsyncCSV.runUntilSettled_eq_run env.events {}
    have hproc : (AsyncCSV.runUntilSettled {} env.events).vars.processed =
        (AsyncCSV.runUntilSettled {} env.events).sink.length := by
      rw [hrun]; exact AsyncCSV.run_processed _ _ rfl
    have hsink : (AsyncCSV.runUntilSettled {} env.events).sink =
        AsyncCSV.dataRows (AsyncCSV.handled {} env.events) := by
      rw [hrun] at hcan ⊢
      rw [AsyncCSV.run_sink _ _ hcan]
      rfl
    refine ⟨total, rfl, hlast, rfl, ?_, ?_, ?_, ?_, ?_⟩
    · rw [hfinal]; exact hs
    · rw [hfinal]; exact hcan
    · rw [hfinal]; exact hproc
    · rw [hfinal]; exact hsink
    · rw [hfinal, hproc, hsink]

/-- C7, amended, on a run whose cursor delivers the two rows that were counted. -/
theorem completed_run_counts_witness :
    ∃ total, (Except.ok 2 : Except AsyncCSV.JsError Nat) = Except.ok total ∧
      (AsyncCSV.startExport { id := "1" }
        { count := Except.ok 2
          events := [AsyncCSV.Event.data ["1"] true, AsyncCSV.Event.data ["2"] false,
            AsyncCSV.Event.drain, AsyncCSV.Event.sourceEnd,
            AsyncCSV.Event.finish] }).final.vars.processed =
        (AsyncCSV.startExport { id := "1" }
          { count := Except.ok 2
            events := [AsyncCSV.Event.data ["1"] true, AsyncCSV.Event.data ["2"] false,
              AsyncCSV.Event.drain, AsyncCSV.Event.sourceEnd,
              AsyncCSV.Event.finish] }).final.sink.length := by
  obtain ⟨total, h1, _, _, _, _, h6, _⟩ := completed_run_counts { id := "1" }
    { count := Except.ok 2
      events := [AsyncCSV.Event.data ["1"] true, AsyncCSV.Event.data ["2"] false,
        AsyncCSV.Event.drain, AsyncCSV.Event.sourceEnd, AsyncCSV.Event.finish] } (by decide)
  exact ⟨total, h1, h6⟩
